import Mathlib

/-!
# Verification of the Digital-voting-system core (src/app.py)

A shallow embedding of the voting application's data model and operations:
SQLAlchemy rows become Lean structures, the SQLite tables become lists, and
each Flask route's database-relevant behaviour becomes a pure function from
the store (plus the request's inputs) to a new store and a result.  Ambient
inputs that the claims quantify over (the logged-in user, fresh UUID tokens,
timestamps, the password hash function) are passed as explicit parameters.
-/

namespace VotingApp

/-! ## Identity validators (src/app.py lines 93-108)

The source validates document numbers with Python `re.compile(p).match(s)`
on `str` patterns.  `match` anchors at the start of the string; the trailing
`$` matches at the end of the string *or just before a single trailing
newline* (documented Python `re` semantics for `$` without `re.MULTILINE`);
and `\d` matches any Unicode decimal digit — any character of Unicode
category Nd — not just ASCII `0-9`, while `[A-Z]` is the literal ASCII
range.  `takeMatch p n cs` consumes exactly `n` characters satisfying `p`,
mirroring the fixed-width classes `\d{n}` / `[A-Z]{n}`; `pyDollar` mirrors
the `$` anchor; `isPyDigit` mirrors `\d`. -/

/-- The codepoint ranges of Unicode category Nd (decimal digits), Unicode
14.0.0 — the character class Python's str-pattern `\d` matches. -/
def ndRanges : List (Nat × Nat) :=
  [(48, 57), (1632, 1641), (1776, 1785), (1984, 1993), (2406, 2415),
   (2534, 2543), (2662, 2671), (2790, 2799), (2918, 2927), (3046, 3055),
   (3174, 3183), (3302, 3311), (3430, 3439), (3558, 3567), (3664, 3673),
   (3792, 3801), (3872, 3881), (4160, 4169), (4240, 4249), (6112, 6121),
   (6160, 6169), (6470, 6479), (6608, 6617), (6784, 6793), (6800, 6809),
   (6992, 7001), (7088, 7097), (7232, 7241), (7248, 7257), (42528, 42537),
   (43216, 43225), (43264, 43273), (43472, 43481), (43504, 43513),
   (43600, 43609), (44016, 44025), (65296, 65305), (66720, 66729),
   (68912, 68921), (69734, 69743), (69872, 69881), (69942, 69951),
   (70096, 70105), (70384, 70393), (70736, 70745), (70864, 70873),
   (71248, 71257), (71360, 71369), (71472, 71481), (71904, 71913),
   (72016, 72025), (72784, 72793), (73040, 73049), (73120, 73129),
   (92768, 92777), (92864, 92873), (93008, 93017), (120782, 120831),
   (123200, 123209), (123632, 123641), (125264, 125273), (130032, 130041)]

/-- Python's str-pattern `\d`: any Unicode decimal digit (category Nd). -/
def isPyDigit (c : Char) : Bool :=
  ndRanges.any (fun r => r.1 ≤ c.toNat ∧ c.toNat ≤ r.2)

/-- Python `$` (non-MULTILINE): end of input, or just before one final newline. -/
def pyDollar : List Char → Bool
  | [] => true
  | [c] => c = '\n'
  | _ => false

/-- Consume exactly `n` characters satisfying `p`, returning the remainder. -/
def takeMatch (p : Char → Bool) : Nat → List Char → Option (List Char)
  | 0, cs => some cs
  | _ + 1, [] => none
  | n + 1, c :: cs => if p c then takeMatch p n cs else none

/-- `validate_aadhaar`: `re.match(r"^\d{12}$", s)` (src/app.py line 95). -/
def validate_aadhaar (s : String) : Bool :=
  match takeMatch isPyDigit 12 s.toList with
  | some rest => pyDollar rest
  | none => false

/-- `validate_voter_id`: `re.match(r"^[A-Z]{3}\d{7}$", s)` (src/app.py line 101). -/
def validate_voter_id (s : String) : Bool :=
  match takeMatch Char.isUpper 3 s.toList with
  | some rest1 =>
    match takeMatch isPyDigit 7 rest1 with
    | some rest2 => pyDollar rest2
    | none => false
  | none => false

/-- `validate_pan`: `re.match(r"^[A-Z]{5}\d{4}[A-Z]{1}$", s)` (src/app.py line 107). -/
def validate_pan (s : String) : Bool :=
  match takeMatch Char.isUpper 5 s.toList with
  | some rest1 =>
    match takeMatch isPyDigit 4 rest1 with
    | some rest2 =>
      match takeMatch Char.isUpper 1 rest2 with
      | some rest3 => pyDollar rest3
      | none => false
    | none => false
  | none => false

/-! ### Spec-side format predicates (for the refinement claim C5)

These follow the spec's words ("exactly 12 decimal digits", "3 uppercase
letters followed by 7 digits", "5 uppercase letters, 4 digits, 1 uppercase
letter") — they are deliberately *not* read off the source, so that the
source validators can be compared against them.  The spec's digits are the
ten decimal digits `0-9`. -/

/-- Spec's words: a decimal digit, `0` through `9`. -/
def isAsciiDigit (c : Char) : Bool :=
  48 ≤ c.toNat ∧ c.toNat ≤ 57

/-- Spec's words: the character list is exactly 12 decimal digits. -/
def specNationalIdChars (cs : List Char) : Bool :=
  cs.length = 12 && cs.all isAsciiDigit

/-- Spec's words: 3 uppercase letters followed by 7 digits (10 characters). -/
def specVoterIdChars (cs : List Char) : Bool :=
  cs.length = 10 && (cs.take 3).all Char.isUpper && (cs.drop 3).all isAsciiDigit

/-- Spec's words: 5 uppercase letters, 4 digits, then 1 uppercase letter. -/
def specTaxIdChars (cs : List Char) : Bool :=
  cs.length = 10 && (cs.take 5).all Char.isUpper &&
    ((cs.drop 5).take 4).all isAsciiDigit && (cs.drop 9).all Char.isUpper

/-- Spec-side national-ID format on strings. -/
def specNationalId (s : String) : Bool := specNationalIdChars s.toList

/-- Spec-side voter-ID format on strings. -/
def specVoterId (s : String) : Bool := specVoterIdChars s.toList

/-- Spec-side tax-ID format on strings. -/
def specTaxId (s : String) : Bool := specTaxIdChars s.toList

/-! ### The validators' exact character classes

`py*` are the formats the source actually accepts before the `$` anchor:
the spec's shapes with the digit positions drawn from Unicode Nd. -/

/-- What `^\d{12}` accepts: exactly 12 Unicode decimal digits. -/
def pyNationalIdChars (cs : List Char) : Bool :=
  cs.length = 12 && cs.all isPyDigit

/-- What `^[A-Z]{3}\d{7}` accepts. -/
def pyVoterIdChars (cs : List Char) : Bool :=
  cs.length = 10 && (cs.take 3).all Char.isUpper && (cs.drop 3).all isPyDigit

/-- What `^[A-Z]{5}\d{4}[A-Z]{1}` accepts. -/
def pyTaxIdChars (cs : List Char) : Bool :=
  cs.length = 10 && (cs.take 5).all Char.isUpper &&
    ((cs.drop 5).take 4).all isPyDigit && (cs.drop 9).all Char.isUpper

/-- `pyNationalIdChars` on strings. -/
def pyNationalId (s : String) : Bool := pyNationalIdChars s.toList

/-- `pyVoterIdChars` on strings. -/
def pyVoterId (s : String) : Bool := pyVoterIdChars s.toList

/-- `pyTaxIdChars` on strings. -/
def pyTaxId (s : String) : Bool := pyTaxIdChars s.toList

/-! ## Data model (src/app.py lines 41-89)

Each SQLAlchemy model becomes a structure; a nullable column becomes an
`Option`; `datetime` columns become abstract `Nat` instants (the claims never
inspect them). -/

/-- The `User` model (src/app.py lines 41-55). -/
structure User where
  id : Nat
  username : String
  email : String
  password : String
  is_admin : Bool
  id_type : Option String
  id_number : Option String
  id_proof_image : Option String
  is_verified : Bool
deriving DecidableEq, Repr

/-- The `Candidate` model (src/app.py lines 58-66). -/
structure Candidate where
  id : Nat
  name : String
  party : String
  bio : Option String
  image : Option String
deriving DecidableEq, Repr

/-- The `Vote` model (src/app.py lines 69-78). -/
structure Vote where
  id : Nat
  user_id : Nat
  candidate_id : Nat
  timestamp : Nat
  confirmation_code : String
deriving DecidableEq, Repr

/-- The `Election` model (src/app.py lines 81-89). -/
structure Election where
  id : Nat
  title : String
  description : Option String
  start_date : Nat
  end_date : Nat
  is_active : Bool
deriving DecidableEq, Repr

/-- The persistent state: the four tables of `voting.db` plus the upload
folder's stored file paths (relative to `UPLOAD_FOLDER`). -/
structure DB where
  users : List User
  candidates : List Candidate
  votes : List Vote
  elections : List Election
  files : List String
deriving DecidableEq, Repr

/-- `app.config["ID_VERIFICATION_REQUIRED"] = True` (src/app.py line 26). -/
def ID_VERIFICATION_REQUIRED : Bool := true

/-- SQLite's default rowid assignment for a fresh row: one more than the
largest existing id. -/
def nextId (ids : List Nat) : Nat := ids.foldr max 0 + 1

/-- Remove a path from the upload folder, if present
(`if os.path.exists(p): os.remove(p)`). -/
def removeFile (fs : List String) (p : String) : List String :=
  fs.filter (fun q => q ≠ p)

/-! ## Registration (src/app.py lines 124-198, route `register`) -/

/-- Outcomes of the `register` route's POST handler: each `flash`+`redirect`
failure branch, or success. -/
inductive RegisterResult where
  | passwordMismatch
  | usernameTaken
  | emailTaken
  | invalidAadhaar
  | invalidVoterId
  | invalidPan
  | documentAlreadyRegistered
  | success (uid : Nat)
deriving DecidableEq, Repr

/-- The `register` POST handler (src/app.py lines 126-196).  `hashPw` stands
for `generate_password_hash`, `id_proof` for the optionally uploaded proof
file, and `token` for the fresh `uuid.uuid4()` used in the stored file name.
`ID_VERIFICATION_REQUIRED` is the constant `True` of line 26, so the
verification block always runs. -/
def register (hashPw : String → String)
    (username email password confirm_password id_type id_number : String)
    (id_proof : Option String) (token : String) (s : DB) : DB × RegisterResult :=
  if password ≠ confirm_password then (s, .passwordMismatch)
  else if (s.users.find? (fun u => u.username = username)).isSome then (s, .usernameTaken)
  else if (s.users.find? (fun u => u.email = email)).isSome then (s, .emailTaken)
  else if id_type = "aadhaar" ∧ ¬ validate_aadhaar id_number then (s, .invalidAadhaar)
  else if id_type = "voter_id" ∧ ¬ validate_voter_id id_number then (s, .invalidVoterId)
  else if id_type = "pan" ∧ ¬ validate_pan id_number then (s, .invalidPan)
  else if (s.users.find? (fun u =>
      u.id_type = some id_type ∧ u.id_number = some id_number)).isSome then
    (s, .documentAlreadyRegistered)
  else
    let id_proof_image : Option String :=
      id_proof.map (fun _ => "id_proofs/" ++ id_type ++ "_" ++ id_number ++ "_" ++ token ++ ".jpg")
    let uid := nextId (s.users.map (fun u => u.id))
    let newUser : User :=
      { id := uid, username := username, email := email, password := hashPw password,
        is_admin := false, id_type := some id_type, id_number := some id_number,
        id_proof_image := id_proof_image, is_verified := false }
    ({ s with users := s.users ++ [newUser],
              files := match id_proof_image with
                       | some p => s.files ++ [p]
                       | none => s.files },
     .success uid)

/-! ## Login (src/app.py lines 201-224, route `login`) -/

/-- Outcomes of the `login` POST handler. -/
inductive LoginResult where
  | invalidCredentials
  | pendingVerification
  | success (uid : Nat)
deriving DecidableEq, Repr

/-- The `login` POST handler (src/app.py lines 203-222).  `checkPw` stands
for `check_password_hash(stored, submitted)`. -/
def login (checkPw : String → String → Bool) (username password : String)
    (s : DB) : LoginResult :=
  match s.users.find? (fun u => u.username = username) with
  | none => .invalidCredentials
  | some u =>
    if ¬ checkPw u.password password then .invalidCredentials
    else if ID_VERIFICATION_REQUIRED ∧ ¬ u.is_admin ∧ ¬ u.is_verified then .pendingVerification
    else .success u.id

/-! ## Vote casting (src/app.py lines 260-286, route `vote`) -/

/-- Outcomes of the `vote` route. -/
inductive VoteResult where
  | notVerified
  | alreadyVoted
  | candidateNotFound
  | success (vid : Nat) (code : String)
deriving DecidableEq, Repr

/-- The `vote` route (src/app.py lines 262-286).  `u` is `current_user`
(`login_required` guarantees one exists), `code` the fresh
`uuid.uuid4()` confirmation code, `ts` the `datetime.utcnow()` instant. -/
def vote (u : User) (candidate_id : Nat) (code : String) (ts : Nat)
    (s : DB) : DB × VoteResult :=
  if ID_VERIFICATION_REQUIRED ∧ ¬ u.is_verified then (s, .notVerified)
  else if (s.votes.find? (fun v => v.user_id = u.id)).isSome then (s, .alreadyVoted)
  else
    match s.candidates.find? (fun c => c.id = candidate_id) with
    | none => (s, .candidateNotFound)
    | some c =>
      let vid := nextId (s.votes.map (fun v => v.id))
      let newVote : Vote :=
        { id := vid, user_id := u.id, candidate_id := c.id,
          timestamp := ts, confirmation_code := code }
      ({ s with votes := s.votes ++ [newVote] }, .success vid code)

/-! ## Vote confirmation page (src/app.py lines 289-304, route `vote_confirmation`) -/

/-- Outcomes of the `vote_confirmation` route. -/
inductive ConfirmResult where
  | notFound
  | unauthorized
  | success (v : Vote) (c : Option Candidate)
deriving DecidableEq, Repr

/-- The `vote_confirmation` route (src/app.py lines 291-304). -/
def vote_confirmation (u : User) (vote_id : Nat) (s : DB) : ConfirmResult :=
  match s.votes.find? (fun v => v.id = vote_id) with
  | none => .notFound
  | some v =>
    if v.user_id ≠ u.id then .unauthorized
    else .success v (s.candidates.find? (fun c => c.id = v.candidate_id))

/-! ## Public vote verification (src/app.py lines 662-673, route `verify_vote`) -/

/-- Outcomes of the unauthenticated `verify_vote` route. -/
inductive VerifyVoteResult where
  | notFound
  | success (v : Vote) (c : Option Candidate) (u : Option User)
deriving DecidableEq, Repr

/-- The `verify_vote` route (src/app.py lines 663-673): public lookup of a
vote by confirmation code, returning the vote, its candidate and its voter. -/
def verify_vote (code : String) (s : DB) : VerifyVoteResult :=
  match s.votes.find? (fun v => v.confirmation_code = code) with
  | none => .notFound
  | some v =>
    .success v (s.candidates.find? (fun c => c.id = v.candidate_id))
      (s.users.find? (fun u => u.id = v.user_id))

/-! ## Candidate administration (src/app.py lines 344-437) -/

/-- The `add_candidate` POST handler (src/app.py lines 346-370).  `image` is
the optionally uploaded image's stored filename. -/
def add_candidate (u : User) (name party : String) (bio : Option String)
    (image : Option String) (s : DB) : DB :=
  if ¬ u.is_admin then s
  else
    let cid := nextId (s.candidates.map (fun c => c.id))
    let newCandidate : Candidate :=
      { id := cid, name := name, party := party, bio := bio, image := image }
    let files1 := match image with
                  | some p => s.files ++ [p]
                  | none => s.files
    { s with candidates := s.candidates ++ [newCandidate], files := files1 }

/-- The `edit_candidate` POST handler (src/app.py lines 377-410): updates the
fetched candidate's fields; a new image replaces (and deletes) the old one. -/
def edit_candidate (u : User) (candidate_id : Nat) (name party : String)
    (bio : Option String) (image : Option String) (s : DB) : DB :=
  if ¬ u.is_admin then s
  else
    match s.candidates.find? (fun c => c.id = candidate_id) with
    | none => s
    | some c =>
      let files1 := match image with
                    | some p => (match c.image with
                                 | some old => removeFile (s.files ++ [p]) old
                                 | none => s.files ++ [p])
                    | none => s.files
      { s with
        candidates := s.candidates.map (fun c2 =>
          if c2.id = candidate_id then
            { c2 with name := name, party := party, bio := bio,
                      image := match image with
                               | some p => some p
                               | none => c2.image }
          else c2),
        files := files1 }

/-- The `delete_candidate` route (src/app.py lines 417-437): deletes the
candidate's image file, then the candidate row; the ORM relationship's
`cascade="all, delete-orphan"` deletes the candidate's votes. -/
def delete_candidate (u : User) (candidate_id : Nat) (s : DB) : DB :=
  if ¬ u.is_admin then s
  else
    match s.candidates.find? (fun c => c.id = candidate_id) with
    | none => s
    | some c =>
      { s with
        candidates := s.candidates.filter (fun c2 => c2.id ≠ candidate_id),
        votes := s.votes.filter (fun v => v.candidate_id ≠ candidate_id),
        files := match c.image with
                 | some p => removeFile s.files p
                 | none => s.files }

/-! ## Tally (src/app.py lines 440-460, route `admin_results`) -/

/-- The per-candidate enumeration built by the loop of lines 451-453: one
`(candidate, vote_count)` pair per candidate, in the table's natural order. -/
def tallyList (s : DB) : List (Candidate × Nat) :=
  s.candidates.map (fun c => (c, (s.votes.filter (fun v => v.candidate_id = c.id)).length))

/-- The ordering used by `results.sort(key=lambda x: x["votes"], reverse=True)`:
a placed before b when a's count is at least b's.  Python's sort is stable,
so together with stability this pins the result uniquely. -/
def tallyOrder (a b : Candidate × Nat) : Prop := b.2 ≤ a.2

instance : DecidableRel tallyOrder := fun a b => Nat.decLe b.2 a.2

instance : IsTotal (Candidate × Nat) tallyOrder := ⟨fun a b => Nat.le_total b.2 a.2⟩

instance : IsTrans (Candidate × Nat) tallyOrder := ⟨fun _ _ _ h1 h2 => Nat.le_trans h2 h1⟩

/-- The `admin_results` route (src/app.py lines 442-460): admin-gated; builds
the per-candidate counts, stable-sorts them by count descending, and reports
the total number of votes. -/
def admin_results (u : User) (s : DB) : Option (List (Candidate × Nat) × Nat) :=
  if ¬ u.is_admin then none
  else some (List.insertionSort tallyOrder (tallyList s), s.votes.length)

/-! ## Election administration (src/app.py lines 474-557) -/

/-- Outcomes of the admin routes that fetch a row by id. -/
inductive AdminResult where
  | unauthorized
  | notFound
  | success
deriving DecidableEq, Repr

/-- One iteration of the deactivation loop (src/app.py lines 491-492 and
529-530): an active election's flag is set to `False`; others are untouched. -/
def deactivate (e : Election) : Election :=
  if e.is_active then { e with is_active := false } else e

/-- The whole deactivation loop over `query(Election).filter_by(is_active=True)`. -/
def deactivateAll (l : List Election) : List Election := l.map deactivate

/-- The fresh `Election` row built by `add_election` (src/app.py lines 494-496). -/
def mkElection (id : Nat) (title : String) (description : Option String)
    (start_date end_date : Nat) (is_active : Bool) : Election :=
  { id := id, title := title, description := description,
    start_date := start_date, end_date := end_date, is_active := is_active }

/-- The field overwrite `edit_election` performs on the row with the requested
primary key (src/app.py lines 520-532). -/
def applyEdit (election_id : Nat) (title : String) (description : Option String)
    (start_date end_date : Nat) (new_is_active : Bool) (e2 : Election) : Election :=
  if e2.id = election_id then
    { e2 with title := title, description := description,
              start_date := start_date, end_date := end_date,
              is_active := new_is_active }
  else e2

/-- The `add_election` POST handler (src/app.py lines 476-502): if the new
election is to be active, first deactivate every active election, then insert
the new row. -/
def add_election (u : User) (title : String) (description : Option String)
    (start_date end_date : Nat) (is_active : Bool) (s : DB) : DB :=
  if ¬ u.is_admin then s
  else
    let elections1 := if is_active then deactivateAll s.elections else s.elections
    let eid := nextId (s.elections.map (fun e => e.id))
    { s with elections :=
        elections1 ++ [mkElection eid title description start_date end_date is_active] }

/-- The `edit_election` POST handler (src/app.py lines 509-536): when turning
a currently-inactive election active, first deactivate every active election;
then overwrite the target's fields, including its active flag. -/
def edit_election (u : User) (election_id : Nat) (title : String)
    (description : Option String) (start_date end_date : Nat)
    (new_is_active : Bool) (s : DB) : DB × AdminResult :=
  if ¬ u.is_admin then (s, .unauthorized)
  else
    match s.elections.find? (fun e => e.id = election_id) with
    | none => (s, .notFound)
    | some e =>
      let elections1 := if new_is_active ∧ ¬ e.is_active then
          deactivateAll s.elections
        else s.elections
      ({ s with elections :=
          elections1.map (applyEdit election_id title description start_date end_date new_is_active) },
       .success)

/-- The `delete_election` route (src/app.py lines 543-557). -/
def delete_election (u : User) (election_id : Nat) (s : DB) : DB × AdminResult :=
  if ¬ u.is_admin then (s, .unauthorized)
  else
    match s.elections.find? (fun e => e.id = election_id) with
    | none => (s, .notFound)
    | some _ =>
      ({ s with elections := s.elections.filter (fun e => e.id ≠ election_id) }, .success)

/-! ## User administration (src/app.py lines 573-633) -/

/-- The `make_admin` route (src/app.py lines 575-588). -/
def make_admin (u : User) (user_id : Nat) (s : DB) : DB :=
  if ¬ u.is_admin then s
  else
    match s.users.find? (fun u2 => u2.id = user_id) with
    | none => s
    | some _ =>
      { s with users := s.users.map (fun u2 =>
          if u2.id = user_id then { u2 with is_admin := true } else u2) }

/-- The `verify_user` route (src/app.py lines 593-607). -/
def verify_user (u : User) (user_id : Nat) (s : DB) : DB :=
  if ¬ u.is_admin then s
  else
    match s.users.find? (fun u2 => u2.id = user_id) with
    | none => s
    | some _ =>
      { s with users := s.users.map (fun u2 =>
          if u2.id = user_id then { u2 with is_verified := true } else u2) }

/-- The `reject_user` route (src/app.py lines 612-633): admin-gated; deletes
the user's stored ID-proof file (if any), then the user row; the ORM
relationship's cascade deletes the user's vote rows. -/
def reject_user (u : User) (user_id : Nat) (s : DB) : DB × AdminResult :=
  if ¬ u.is_admin then (s, .unauthorized)
  else
    match s.users.find? (fun u2 => u2.id = user_id) with
    | none => (s, .notFound)
    | some target =>
      ({ s with
          files := match target.id_proof_image with
                   | some p => removeFile s.files p
                   | none => s.files,
          users := s.users.filter (fun u2 => u2.id ≠ user_id),
          votes := s.votes.filter (fun v => v.user_id ≠ user_id) },
       .success)

/-! ## Operation sequences

One constructor per state-mutating route, so invariants can be proved over
arbitrary operation sequences. -/

/-- A state-mutating operation of the application, with the request's inputs. -/
inductive Op where
  | opRegister (username email password confirm_password id_type id_number : String)
      (id_proof : Option String) (token : String)
  | opVote (u : User) (candidate_id : Nat) (code : String) (ts : Nat)
  | opAddCandidate (u : User) (name party : String) (bio : Option String)
      (image : Option String)
  | opEditCandidate (u : User) (candidate_id : Nat) (name party : String)
      (bio : Option String) (image : Option String)
  | opDeleteCandidate (u : User) (candidate_id : Nat)
  | opAddElection (u : User) (title : String) (description : Option String)
      (start_date end_date : Nat) (is_active : Bool)
  | opEditElection (u : User) (election_id : Nat) (title : String)
      (description : Option String) (start_date end_date : Nat) (is_active : Bool)
  | opDeleteElection (u : User) (election_id : Nat)
  | opMakeAdmin (u : User) (user_id : Nat)
  | opVerifyUser (u : User) (user_id : Nat)
  | opRejectUser (u : User) (user_id : Nat)

/-- Apply one operation to the store. -/
def step (hashPw : String → String) (s : DB) : Op → DB
  | .opRegister username email password confirm_password id_type id_number id_proof token =>
    (register hashPw username email password confirm_password id_type id_number id_proof token s).1
  | .opVote u candidate_id code ts => (vote u candidate_id code ts s).1
  | .opAddCandidate u name party bio image => add_candidate u name party bio image s
  | .opEditCandidate u candidate_id name party bio image =>
    edit_candidate u candidate_id name party bio image s
  | .opDeleteCandidate u candidate_id => delete_candidate u candidate_id s
  | .opAddElection u title description start_date end_date is_active =>
    add_election u title description start_date end_date is_active s
  | .opEditElection u election_id title description start_date end_date is_active =>
    (edit_election u election_id title description start_date end_date is_active s).1
  | .opDeleteElection u election_id => (delete_election u election_id s).1
  | .opMakeAdmin u user_id => make_admin u user_id s
  | .opVerifyUser u user_id => verify_user u user_id s
  | .opRejectUser u user_id => (reject_user u user_id s).1

/-- Apply a sequence of operations in order. -/
def run (hashPw : String → String) (s : DB) (ops : List Op) : DB :=
  ops.foldl (step hashPw) s

/-! ## Invariants -/

/-- At most one vote per account: no two persisted votes share a `user_id`. -/
def atMostOneVotePerUser (s : DB) : Prop :=
  s.votes.Pairwise (fun v1 v2 => v1.user_id ≠ v2.user_id)

/-- At most one election is active. -/
def atMostOneActive (s : DB) : Prop :=
  (s.elections.filter (fun e => e.is_active)).length ≤ 1

/-! ## Concrete fixtures used to evaluate the operations -/

/-- A stand-in for `generate_password_hash` in concrete evaluations. -/
def sampleHash : String → String := fun p => "hashed:" ++ p

/-- A stand-in for `check_password_hash` in concrete evaluations. -/
def sampleCheck : String → String → Bool := fun stored given => stored == sampleHash given

/-- The bootstrap administrator (src/app.py lines 682-689). -/
def adminUser : User := ⟨1, "admin", "admin@example.com", sampleHash "admin123", true, none, none, none, true⟩

/-- A verified voter holding a national-ID document. -/
def voterAlice : User := ⟨2, "alice", "alice@example.com", sampleHash "pw2", false, some "aadhaar", some "123456789012", some "id_proofs/alice.jpg", true⟩

/-- A vote already cast by `voterAlice` for candidate 1. -/
def voteAlice : Vote := ⟨1, 2, 1, 0, "code-alice"⟩

/-- Sample candidates in insertion order. -/
def candA : Candidate := ⟨1, "A", "P1", none, none⟩

def candB : Candidate := ⟨2, "B", "P2", none, none⟩

def candC : Candidate := ⟨3, "C", "P3", none, none⟩

/-- The empty store (`db.create_all()` on a fresh database). -/
def dbEmpty : DB := ⟨[], [], [], [], []⟩

/-- A store with one verified voter who has already voted. -/
def dbOne : DB := ⟨[adminUser, voterAlice], [candA], [voteAlice], [], ["id_proofs/alice.jpg"]⟩

/-- A store with one registered voter and no votes. -/
def dbAlice : DB := ⟨[voterAlice], [], [], [], []⟩

/-- A store with a verified voter, a candidate, and no votes or elections. -/
def dbNoVotes : DB := ⟨[voterAlice], [candA], [], [], []⟩

/-- A store with one active and one inactive election. -/
def dbElections : DB := ⟨[], [], [], [⟨1, "E1", none, 0, 1, true⟩, ⟨2, "E2", none, 0, 1, false⟩], []⟩

/-- Three votes for candidate 1, five for candidate 2, five for candidate 3. -/
def tallyVotesA : List Vote := (List.range 3).map (fun i => ⟨i + 1, i + 10, 1, 0, toString i ++ "a"⟩)

def tallyVotesB : List Vote := (List.range 5).map (fun i => ⟨i + 4, i + 20, 2, 0, toString i ++ "b"⟩)

def tallyVotesC : List Vote := (List.range 5).map (fun i => ⟨i + 9, i + 30, 3, 0, toString i ++ "c"⟩)

/-- The spec's tally scenario: candidates A, B, C with 3, 5, 5 votes. -/
def dbTally : DB := ⟨[adminUser], [candA, candB, candC], tallyVotesA ++ tallyVotesB ++ tallyVotesC, [], []⟩

/-! ## Lemmas about the validators -/

theorem takeMatch_eq_some_iff (p : Char → Bool) (n : Nat) :
    ∀ (cs rest : List Char),
      takeMatch p n cs = some rest ↔
        ∃ ds, cs = ds ++ rest ∧ ds.length = n ∧ ds.all p = true := by
  induction n with
  | zero =>
    intro cs rest
    simp only [takeMatch, Option.some.injEq]
    constructor
    · rintro rfl
      exact ⟨[], rfl, rfl, rfl⟩
    · rintro ⟨ds, h1, h2, _⟩
      rw [List.length_eq_zero] at h2
      subst h2
      simpa using h1
  | succ n ih =>
    intro cs rest
    cases cs with
    | nil =>
      simp only [takeMatch]
      constructor
      · intro h
        cases h
      · rintro ⟨ds, h1, h2, _⟩
        cases ds with
        | nil => cases h2
        | cons d ds' => cases h1
    | cons c cs' =>
      simp only [takeMatch]
      by_cases hp : p c = true
      · rw [if_pos hp, ih]
        constructor
        · rintro ⟨ds, rfl, h2, h3⟩
          exact ⟨c :: ds, rfl, by simp [h2], by simp [hp, h3]⟩
        · rintro ⟨ds, h1, h2, h3⟩
          cases ds with
          | nil => cases h2
          | cons d ds' =>
            injection h1 with hc hcs
            subst hc
            refine ⟨ds', hcs, ?_, ?_⟩
            · simpa using h2
            · simp only [List.all_cons, Bool.and_eq_true] at h3
              exact h3.2
      · rw [if_neg hp]
        constructor
        · intro h
          cases h
        · rintro ⟨ds, h1, h2, h3⟩
          cases ds with
          | nil => cases h2
          | cons d ds' =>
            injection h1 with hc _
            subst hc
            simp only [List.all_cons, Bool.and_eq_true] at h3
            exact absurd h3.1 hp

theorem takeMatch_append (p : Char → Bool) (ds rest : List Char)
    (h : ds.all p = true) : takeMatch p ds.length (ds ++ rest) = some rest := by
  induction ds with
  | nil => rfl
  | cons d ds' ih =>
    simp only [List.all_cons, Bool.and_eq_true] at h
    simp only [List.length_cons, List.cons_append, takeMatch, if_pos h.1]
    exact ih h.2

theorem pyDollar_eq_true (cs : List Char) :
    pyDollar cs = true ↔ cs = [] ∨ cs = ['\n'] := by
  match cs with
  | [] => simp [pyDollar]
  | [c] => simp [pyDollar]
  | c :: d :: t => simp [pyDollar]

theorem validate_aadhaar_iff (s : String) :
    validate_aadhaar s = true ↔
      (pyNationalId s = true ∨
        ∃ cs, s.toList = cs ++ ['\n'] ∧ pyNationalIdChars cs = true) := by
  unfold validate_aadhaar pyNationalId
  constructor
  · intro h
    match htm : takeMatch isPyDigit 12 s.toList with
    | none => rw [htm] at h; cases h
    | some rest =>
      rw [htm] at h
      rw [takeMatch_eq_some_iff] at htm
      obtain ⟨ds, hcs, hlen, hall⟩ := htm
      rcases (pyDollar_eq_true rest).mp h with hr | hr
      · subst hr
        left
        simp only [List.append_nil] at hcs
        simp only [pyNationalIdChars]
        rw [hcs]
        simp [hlen, hall]
      · subst hr
        right
        exact ⟨ds, hcs, by simp [pyNationalIdChars, hlen, hall]⟩
  · intro h
    have key : ∃ rest, takeMatch isPyDigit 12 s.toList = some rest ∧
        pyDollar rest = true := by
      rcases h with h | ⟨cs, hcs, h⟩
      · simp only [pyNationalIdChars, Bool.and_eq_true, decide_eq_true_eq] at h
        obtain ⟨hlen, hall⟩ := h
        refine ⟨[], ?_, rfl⟩
        have := takeMatch_append isPyDigit s.toList [] hall
        rw [hlen, List.append_nil] at this
        exact this
      · simp only [pyNationalIdChars, Bool.and_eq_true, decide_eq_true_eq] at h
        obtain ⟨hlen, hall⟩ := h
        refine ⟨['\n'], ?_, rfl⟩
        have := takeMatch_append isPyDigit cs ['\n'] hall
        rw [hlen, ← hcs] at this
        exact this
    obtain ⟨rest, h1, h2⟩ := key
    rw [h1]
    exact h2

theorem take_append_of_length {α : Type} (l1 l2 : List α) (n : Nat)
    (h : l1.length = n) : (l1 ++ l2).take n = l1 := by
  subst h
  exact List.take_left l1 l2

theorem drop_append_of_length {α : Type} (l1 l2 : List α) (n : Nat)
    (h : l1.length = n) : (l1 ++ l2).drop n = l2 := by
  subst h
  exact List.drop_left l1 l2

theorem pyVoterIdChars_decomp (cs rest : List Char) (h : pyVoterIdChars cs = true) :
    takeMatch Char.isUpper 3 (cs ++ rest) = some (cs.drop 3 ++ rest) ∧
    takeMatch isPyDigit 7 (cs.drop 3 ++ rest) = some rest := by
  unfold pyVoterIdChars at h
  simp only [Bool.and_eq_true, decide_eq_true_eq] at h
  obtain ⟨⟨hlen, htake⟩, hdrop⟩ := h
  constructor
  · have h3 : (cs.take 3).length = 3 := by simp [List.length_take, hlen]
    have hsplit : cs ++ rest = cs.take 3 ++ (cs.drop 3 ++ rest) := by
      rw [← List.append_assoc, List.take_append_drop]
    have key := takeMatch_append Char.isUpper (cs.take 3) (cs.drop 3 ++ rest) htake
    rw [h3] at key
    rw [hsplit]
    exact key
  · have h7 : (cs.drop 3).length = 7 := by simp [List.length_drop, hlen]
    have key := takeMatch_append isPyDigit (cs.drop 3) rest hdrop
    rw [h7] at key
    exact key

theorem validate_voter_id_iff (s : String) :
    validate_voter_id s = true ↔
      (pyVoterId s = true ∨
        ∃ cs, s.toList = cs ++ ['\n'] ∧ pyVoterIdChars cs = true) := by
  unfold validate_voter_id pyVoterId
  constructor
  · intro h
    match h1 : takeMatch Char.isUpper 3 s.toList with
    | none => rw [h1] at h; cases h
    | some rest1 =>
      rw [h1] at h
      have h' : (match takeMatch isPyDigit 7 rest1 with
                 | some rest2 => pyDollar rest2
                 | none => false) = true := h
      match h2 : takeMatch isPyDigit 7 rest1 with
      | none => rw [h2] at h'; cases h'
      | some rest2 =>
        rw [h2] at h'
        replace h := h'
        rw [takeMatch_eq_some_iff] at h1 h2
        obtain ⟨us, hcs, huslen, hus⟩ := h1
        obtain ⟨ds, hrest1, hdslen, hds⟩ := h2
        have hdecomp : s.toList = (us ++ ds) ++ rest2 := by
          rw [hcs, hrest1, List.append_assoc]
        have hspec : pyVoterIdChars (us ++ ds) = true := by
          unfold pyVoterIdChars
          have ht : (us ++ ds).take 3 = us := take_append_of_length us ds 3 huslen
          have hd : (us ++ ds).drop 3 = ds := drop_append_of_length us ds 3 huslen
          simp [ht, hd, hus, hds, List.length_append, huslen, hdslen]
        rcases (pyDollar_eq_true rest2).mp h with hr | hr
        · subst hr
          left
          rw [List.append_nil] at hdecomp
          rw [hdecomp]
          exact hspec
        · subst hr
          right
          exact ⟨us ++ ds, hdecomp, hspec⟩
  · intro h
    rcases h with h | ⟨cs, hcs, h⟩
    · obtain ⟨k1, k2⟩ := pyVoterIdChars_decomp s.toList [] h
      simp only [List.append_nil] at k1 k2
      simp only [k1, k2]
      decide
    · obtain ⟨k1, k2⟩ := pyVoterIdChars_decomp cs ['\n'] h
      rw [← hcs] at k1
      simp only [k1, k2]
      decide

theorem pyTaxIdChars_decomp (cs rest : List Char) (h : pyTaxIdChars cs = true) :
    takeMatch Char.isUpper 5 (cs ++ rest) = some (cs.drop 5 ++ rest) ∧
    takeMatch isPyDigit 4 (cs.drop 5 ++ rest) = some (cs.drop 9 ++ rest) ∧
    takeMatch Char.isUpper 1 (cs.drop 9 ++ rest) = some rest := by
  unfold pyTaxIdChars at h
  simp only [Bool.and_eq_true, decide_eq_true_eq] at h
  obtain ⟨⟨⟨hlen, htake5⟩, hmid⟩, hlast⟩ := h
  refine ⟨?_, ?_, ?_⟩
  · have h5 : (cs.take 5).length = 5 := by simp [List.length_take, hlen]
    have hsplit : cs ++ rest = cs.take 5 ++ (cs.drop 5 ++ rest) := by
      rw [← List.append_assoc, List.take_append_drop]
    have key := takeMatch_append Char.isUpper (cs.take 5) (cs.drop 5 ++ rest) htake5
    rw [h5] at key
    rw [hsplit]
    exact key
  · have h4 : ((cs.drop 5).take 4).length = 4 := by
      simp [List.length_take, List.length_drop, hlen]
    have hdd : (cs.drop 5).drop 4 = cs.drop 9 := by
      rw [List.drop_drop]
    have hsplit : cs.drop 5 ++ rest = (cs.drop 5).take 4 ++ (cs.drop 9 ++ rest) := by
      rw [← List.append_assoc, ← hdd, List.take_append_drop]
    have key := takeMatch_append isPyDigit ((cs.drop 5).take 4) (cs.drop 9 ++ rest) hmid
    rw [h4] at key
    rw [hsplit]
    exact key
  · have h1 : (cs.drop 9).length = 1 := by simp [List.length_drop, hlen]
    have key := takeMatch_append Char.isUpper (cs.drop 9) rest hlast
    rw [h1] at key
    exact key

theorem validate_pan_iff (s : String) :
    validate_pan s = true ↔
      (pyTaxId s = true ∨
        ∃ cs, s.toList = cs ++ ['\n'] ∧ pyTaxIdChars cs = true) := by
  unfold validate_pan pyTaxId
  constructor
  · intro h
    match h1 : takeMatch Char.isUpper 5 s.toList with
    | none => rw [h1] at h; cases h
    | some rest1 =>
      rw [h1] at h
      have hA : (match takeMatch isPyDigit 4 rest1 with
                 | some rest2 =>
                   (match takeMatch Char.isUpper 1 rest2 with
                    | some rest3 => pyDollar rest3
                    | none => false)
                 | none => false) = true := h
      match h2 : takeMatch isPyDigit 4 rest1 with
      | none => rw [h2] at hA; cases hA
      | some rest2 =>
        rw [h2] at hA
        have hB : (match takeMatch Char.isUpper 1 rest2 with
                   | some rest3 => pyDollar rest3
                   | none => false) = true := hA
        match h3 : takeMatch Char.isUpper 1 rest2 with
        | none => rw [h3] at hB; cases hB
        | some rest3 =>
          rw [h3] at hB
          replace h := hB
          rw [takeMatch_eq_some_iff] at h1 h2 h3
          obtain ⟨us, hcs, huslen, hus⟩ := h1
          obtain ⟨ds, hrest1, hdslen, hds⟩ := h2
          obtain ⟨fs, hrest2, hfslen, hfs⟩ := h3
          have hdecomp : s.toList = ((us ++ ds) ++ fs) ++ rest3 := by
            rw [hcs, hrest1, hrest2]
            simp [List.append_assoc]
          have hspec : pyTaxIdChars ((us ++ ds) ++ fs) = true := by
            unfold pyTaxIdChars
            have hlen9 : (us ++ ds).length = 9 := by
              simp [List.length_append, huslen, hdslen]
            have ht5 : ((us ++ ds) ++ fs).take 5 = us := by
              rw [List.append_assoc]
              exact take_append_of_length us (ds ++ fs) 5 huslen
            have hd5 : ((us ++ ds) ++ fs).drop 5 = ds ++ fs := by
              rw [List.append_assoc]
              exact drop_append_of_length us (ds ++ fs) 5 huslen
            have ht4 : (ds ++ fs).take 4 = ds := take_append_of_length ds fs 4 hdslen
            have hd9 : ((us ++ ds) ++ fs).drop 9 = fs :=
              drop_append_of_length (us ++ ds) fs 9 hlen9
            have hd9' : (us ++ (ds ++ fs)).drop 9 = fs := by
              rw [← List.append_assoc]
              exact hd9
            simp [ht5, hd5, ht4, hd9, hd9', hus, hds, hfs, List.length_append,
              huslen, hdslen, hfslen]
          rcases (pyDollar_eq_true rest3).mp h with hr | hr
          · subst hr
            left
            rw [List.append_nil] at hdecomp
            rw [hdecomp]
            exact hspec
          · subst hr
            right
            exact ⟨(us ++ ds) ++ fs, hdecomp, hspec⟩
  · intro h
    rcases h with h | ⟨cs, hcs, h⟩
    · obtain ⟨k1, k2, k3⟩ := pyTaxIdChars_decomp s.toList [] h
      simp only [List.append_nil] at k1 k2 k3
      simp only [k1, k2, k3]
      decide
    · obtain ⟨k1, k2, k3⟩ := pyTaxIdChars_decomp cs ['\n'] h
      rw [← hcs] at k1
      simp only [k1, k2, k3]
      decide

/-! ## Lemmas about the tally -/

theorem orderedInsert_filter_count (a : Candidate × Nat) (l : List (Candidate × Nat)) (n : Nat) :
    (List.orderedInsert tallyOrder a l).filter (fun x => x.2 = n) =
      if a.2 = n then a :: l.filter (fun x => x.2 = n)
      else l.filter (fun x => x.2 = n) := by
  induction l with
  | nil =>
    by_cases h : a.2 = n <;> simp [List.orderedInsert, h]
  | cons b l ih =>
    simp only [List.orderedInsert]
    split
    · by_cases h : a.2 = n <;> simp [List.filter_cons, h]
    · next hr =>
      have hab : a.2 < b.2 := Nat.lt_of_not_le (by simpa [tallyOrder] using hr)
      by_cases h : a.2 = n
      · have hb : ¬ (b.2 = n) := by omega
        rw [if_pos h] at ih ⊢
        simp [List.filter_cons, hb, ih]
      · rw [if_neg h] at ih ⊢
        by_cases hb : b.2 = n <;> simp [List.filter_cons, hb, ih]

theorem insertionSort_filter_count (l : List (Candidate × Nat)) (n : Nat) :
    (List.insertionSort tallyOrder l).filter (fun x => x.2 = n) =
      l.filter (fun x => x.2 = n) := by
  induction l with
  | nil => rfl
  | cons a l ih =>
    simp only [List.insertionSort]
    rw [orderedInsert_filter_count]
    by_cases h : a.2 = n <;> simp [h, ih, List.filter_cons]

theorem length_filter_add_not {α : Type} (l : List α) (p : α → Prop) [DecidablePred p] :
    l.length = (l.filter (fun a => p a)).length + (l.filter (fun a => ¬ p a)).length := by
  induction l with
  | nil => rfl
  | cons a l ih =>
    by_cases h : p a <;> simp [List.filter_cons, h, ih] <;> omega

theorem map_fst_pairing {α β : Type} (l : List α) (g : α → β) :
    (l.map (fun a => (a, g a))).map Prod.fst = l := by
  induction l with
  | nil => rfl
  | cons a l ih => simp [ih]

theorem tally_counts_sum (candidates : List Candidate) (votes : List Vote)
    (hnodup : (candidates.map (fun c => c.id)).Nodup)
    (hmem : ∀ v ∈ votes, v.candidate_id ∈ candidates.map (fun c => c.id)) :
    (candidates.map (fun c => (votes.filter (fun v => v.candidate_id = c.id)).length)).sum
      = votes.length := by
  induction candidates generalizing votes with
  | nil =>
    have : votes = [] := by
      cases votes with
      | nil => rfl
      | cons v vs => exact absurd (hmem v (List.mem_cons_self v vs)) (by simp)
    subst this
    rfl
  | cons c cs ih =>
    simp only [List.map_cons, List.sum_cons]
    have hnodup2 : (c.id :: cs.map (fun c2 => c2.id)).Nodup := by
      simpa only [List.map_cons] using hnodup
    have hnd := List.nodup_cons.mp hnodup2
    have hmemV' : ∀ v ∈ votes.filter (fun v => ¬ v.candidate_id = c.id),
        v.candidate_id ∈ cs.map (fun c2 => c2.id) := by
      intro v hv
      have hvm := List.mem_of_mem_filter hv
      have hne : ¬ v.candidate_id = c.id := by
        have := List.of_mem_filter hv
        simpa using this
      have hin := hmem v hvm
      simp only [List.map_cons, List.mem_cons] at hin
      rcases hin with h | h
      · exact absurd h hne
      · exact h
    have hrec := ih (votes.filter (fun v => ¬ v.candidate_id = c.id)) hnd.2 hmemV'
    have hcong : cs.map (fun c2 => (votes.filter (fun v => v.candidate_id = c2.id)).length)
        = cs.map (fun c2 =>
            (((votes.filter (fun v => ¬ v.candidate_id = c.id)).filter
              (fun v => v.candidate_id = c2.id))).length) := by
      apply List.map_congr_left
      intro c2 hc2
      have hc2ne : c2.id ≠ c.id := by
        intro hEq
        exact hnd.1 (hEq ▸ List.mem_map_of_mem (fun c3 => c3.id) hc2)
      rw [List.filter_filter]
      congr 1
      apply List.filter_congr
      intro v _
      by_cases hv : v.candidate_id = c2.id
      · simp [hv, hc2ne]
      · simp [hv]
    rw [hcong, hrec]
    have := length_filter_add_not votes (fun v => v.candidate_id = c.id)
    omega

/-! ## Lemmas about the one-vote-per-account invariant -/

theorem vote_already (u : User) (cid : Nat) (code : String) (ts : Nat) (s : DB)
    (hver : u.is_verified = true)
    (hvoted : ∃ v ∈ s.votes, v.user_id = u.id) :
    vote u cid code ts s = (s, VoteResult.alreadyVoted) := by
  unfold vote
  rw [if_neg, if_pos]
  · obtain ⟨v, hv, hvid⟩ := hvoted
    have : s.votes.find? (fun v2 => v2.user_id = u.id) |>.isSome := by
      rw [List.find?_isSome]
      exact ⟨v, hv, by simp [hvid]⟩
    exact this
  · rintro ⟨_, hn⟩
    exact hn hver

theorem vote_votes_cases (u : User) (cid : Nat) (code : String) (ts : Nat) (s : DB) :
    (vote u cid code ts s).1.votes = s.votes ∨
    ((∀ v ∈ s.votes, ¬ v.user_id = u.id) ∧
      ∃ nv : Vote, nv.user_id = u.id ∧ (vote u cid code ts s).1.votes = s.votes ++ [nv]) := by
  unfold vote
  split
  · left; rfl
  split
  · left; rfl
  next h2 =>
  have hnone : s.votes.find? (fun v => v.user_id = u.id) = none := by
    cases hf : s.votes.find? (fun v => v.user_id = u.id) with
    | none => rfl
    | some v => exact absurd (by rw [hf]; rfl) h2
  have hall := List.find?_eq_none.mp hnone
  split
  · left; rfl
  · right
    refine ⟨fun v hv => by simpa using hall v hv, ?_⟩
    exact ⟨_, rfl, rfl⟩

theorem register_votes (hashPw : String → String)
    (username email password confirm_password id_type id_number : String)
    (id_proof : Option String) (token : String) (s : DB) :
    (register hashPw username email password confirm_password id_type id_number
      id_proof token s).1.votes = s.votes := by
  unfold register
  repeat' split
  all_goals rfl

theorem add_candidate_votes (u : User) (name party : String) (bio image : Option String)
    (s : DB) : (add_candidate u name party bio image s).votes = s.votes := by
  unfold add_candidate
  repeat' split
  all_goals rfl

theorem edit_candidate_votes (u : User) (cid : Nat) (name party : String)
    (bio image : Option String) (s : DB) :
    (edit_candidate u cid name party bio image s).votes = s.votes := by
  unfold edit_candidate
  repeat' split
  all_goals rfl

theorem delete_candidate_votes (u : User) (cid : Nat) (s : DB) :
    (delete_candidate u cid s).votes.Sublist s.votes := by
  unfold delete_candidate
  repeat' split
  all_goals first
    | exact List.Sublist.refl _
    | exact List.filter_sublist _

theorem add_election_votes (u : User) (title : String) (description : Option String)
    (sd ed : Nat) (b : Bool) (s : DB) :
    (add_election u title description sd ed b s).votes = s.votes := by
  unfold add_election
  repeat' split
  all_goals rfl

theorem edit_election_votes (u : User) (eid : Nat) (title : String)
    (description : Option String) (sd ed : Nat) (b : Bool) (s : DB) :
    (edit_election u eid title description sd ed b s).1.votes = s.votes := by
  unfold edit_election
  repeat' split
  all_goals rfl

theorem delete_election_votes (u : User) (eid : Nat) (s : DB) :
    (delete_election u eid s).1.votes = s.votes := by
  unfold delete_election
  repeat' split
  all_goals rfl

theorem make_admin_votes (u : User) (uid : Nat) (s : DB) :
    (make_admin u uid s).votes = s.votes := by
  unfold make_admin
  repeat' split
  all_goals rfl

theorem verify_user_votes (u : User) (uid : Nat) (s : DB) :
    (verify_user u uid s).votes = s.votes := by
  unfold verify_user
  repeat' split
  all_goals rfl

theorem reject_user_votes (u : User) (uid : Nat) (s : DB) :
    (reject_user u uid s).1.votes.Sublist s.votes := by
  unfold reject_user
  repeat' split
  all_goals first
    | exact List.Sublist.refl _
    | exact List.filter_sublist _

theorem step_preserves_atMostOneVote (hashPw : String → String) (s : DB) (op : Op)
    (h : atMostOneVotePerUser s) : atMostOneVotePerUser (step hashPw s op) := by
  unfold atMostOneVotePerUser at h ⊢
  cases op with
  | opVote u cid code ts =>
    show ((vote u cid code ts s).1.votes).Pairwise _
    rcases vote_votes_cases u cid code ts s with hcase | ⟨hnone, nv, hnv, hcase⟩
    · rw [hcase]; exact h
    · rw [hcase]
      rw [List.pairwise_append]
      refine ⟨h, List.pairwise_singleton _ _, ?_⟩
      intro a ha b hb
      have hbnv : b = nv := by simpa using hb
      subst hbnv
      rw [hnv]
      exact hnone a ha
  | opRegister username email password confirm_password id_type id_number id_proof token =>
    show ((register hashPw username email password confirm_password id_type id_number
      id_proof token s).1.votes).Pairwise _
    rw [register_votes]
    exact h
  | opAddCandidate u name party bio image =>
    show ((add_candidate u name party bio image s).votes).Pairwise _
    rw [add_candidate_votes]
    exact h
  | opEditCandidate u cid name party bio image =>
    show ((edit_candidate u cid name party bio image s).votes).Pairwise _
    rw [edit_candidate_votes]
    exact h
  | opDeleteCandidate u cid =>
    exact List.Pairwise.sublist (delete_candidate_votes u cid s) h
  | opAddElection u title description sd ed b =>
    show ((add_election u title description sd ed b s).votes).Pairwise _
    rw [add_election_votes]
    exact h
  | opEditElection u eid title description sd ed b =>
    show ((edit_election u eid title description sd ed b s).1.votes).Pairwise _
    rw [edit_election_votes]
    exact h
  | opDeleteElection u eid =>
    show ((delete_election u eid s).1.votes).Pairwise _
    rw [delete_election_votes]
    exact h
  | opMakeAdmin u uid =>
    show ((make_admin u uid s).votes).Pairwise _
    rw [make_admin_votes]
    exact h
  | opVerifyUser u uid =>
    show ((verify_user u uid s).votes).Pairwise _
    rw [verify_user_votes]
    exact h
  | opRejectUser u uid =>
    exact List.Pairwise.sublist (reject_user_votes u uid s) h

theorem run_preserves_atMostOneVote (hashPw : String → String) (s : DB) (ops : List Op)
    (h : atMostOneVotePerUser s) : atMostOneVotePerUser (run hashPw s ops) := by
  induction ops generalizing s with
  | nil => exact h
  | cons op ops ih =>
    simp only [run, List.foldl_cons]
    exact ih _ (step_preserves_atMostOneVote hashPw s op h)

/-! ## Lemmas about the single-active-election invariant -/

theorem deactivate_id (e : Election) : (deactivate e).id = e.id := by
  unfold deactivate
  split <;> rfl

theorem deactivate_is_active (e : Election) : (deactivate e).is_active = false := by
  unfold deactivate
  split
  · rfl
  · next h => simpa using h

theorem applyEdit_id (eid : Nat) (title : String) (description : Option String)
    (sd ed : Nat) (b : Bool) (e2 : Election) :
    (applyEdit eid title description sd ed b e2).id = e2.id := by
  unfold applyEdit
  split <;> rfl

theorem applyEdit_is_active (eid : Nat) (title : String) (description : Option String)
    (sd ed : Nat) (b : Bool) (e2 : Election) :
    (applyEdit eid title description sd ed b e2).is_active =
      if e2.id = eid then b else e2.is_active := by
  unfold applyEdit
  split <;> rfl

theorem deactivateAll_filter (l : List Election) :
    (deactivateAll l).filter (fun e => e.is_active) = [] := by
  rw [List.filter_eq_nil_iff]
  intro e he
  rcases List.mem_map.mp he with ⟨x, _, rfl⟩
  simp [deactivate_is_active]

theorem countP_id_le_one (l : List Election) (eid : Nat)
    (hnodup : (l.map (fun e => e.id)).Nodup) :
    l.countP (fun e => e.id = eid) ≤ 1 := by
  induction l with
  | nil => simp
  | cons e l ih =>
    have hnodup2 : (e.id :: l.map (fun e2 => e2.id)).Nodup := by
      simpa only [List.map_cons] using hnodup
    have hnd := List.nodup_cons.mp hnodup2
    by_cases h : e.id = eid
    · have hzero : l.countP (fun e2 => e2.id = eid) = 0 := by
        rw [List.countP_eq_zero]
        intro a ha
        simp only [decide_eq_true_eq]
        intro haid
        exact hnd.1 (by rw [h, ← haid]; exact List.mem_map_of_mem (fun e2 => e2.id) ha)
      rw [List.countP_cons]
      simp [h, hzero]
    · rw [List.countP_cons]
      simp only [h, decide_False, if_false]
      simpa using ih hnd.2

theorem add_election_not_admin (u : User) (title : String) (description : Option String)
    (sd ed : Nat) (b : Bool) (s : DB) (hadmin : u.is_admin = false) :
    add_election u title description sd ed b s = s := by
  unfold add_election
  rw [if_pos (by simp [hadmin])]

theorem add_election_elections (u : User) (title : String) (description : Option String)
    (sd ed : Nat) (b : Bool) (s : DB) (hadmin : u.is_admin = true) :
    (add_election u title description sd ed b s).elections =
      (if b then deactivateAll s.elections else s.elections) ++
        [mkElection (nextId (s.elections.map (fun e => e.id))) title description sd ed b] := by
  unfold add_election
  rw [if_neg (by simp [hadmin])]

theorem add_election_preserves (u : User) (title : String) (description : Option String)
    (sd ed : Nat) (b : Bool) (s : DB) (h : atMostOneActive s) :
    atMostOneActive (add_election u title description sd ed b s) := by
  cases hadmin : u.is_admin with
  | false => rw [add_election_not_admin u title description sd ed b s hadmin]; exact h
  | true =>
    unfold atMostOneActive at h ⊢
    rw [add_election_elections u title description sd ed b s hadmin, List.filter_append]
    cases b with
    | false =>
      rw [if_neg (by simp)]
      have : [mkElection (nextId (s.elections.map (fun e => e.id)))
          title description sd ed false].filter (fun e => e.is_active) = [] := by
        simp [mkElection]
      rw [this, List.append_nil]
      exact h
    | true =>
      rw [if_pos rfl, deactivateAll_filter]
      simp [mkElection]

theorem add_election_deactivates (u : User) (title : String) (description : Option String)
    (sd ed : Nat) (s : DB) (hadmin : u.is_admin = true) :
    ∀ e ∈ (add_election u title description sd ed true s).elections,
      e.is_active = true → e.id = nextId (s.elections.map (fun e2 => e2.id)) := by
  rw [add_election_elections u title description sd ed true s hadmin]
  intro e he hact
  rcases List.mem_append.mp he with hmem | hmem
  · rw [if_pos rfl] at hmem
    rcases List.mem_map.mp hmem with ⟨x, _, rfl⟩
    rw [deactivate_is_active] at hact
    cases hact
  · have he2 := List.mem_singleton.mp hmem
    rw [he2]
    rfl

theorem edit_election_not_admin (u : User) (eid : Nat) (title : String)
    (description : Option String) (sd ed : Nat) (b : Bool) (s : DB)
    (hadmin : u.is_admin = false) :
    edit_election u eid title description sd ed b s = (s, AdminResult.unauthorized) := by
  unfold edit_election
  rw [if_pos (by simp [hadmin])]

theorem edit_election_not_found (u : User) (eid : Nat) (title : String)
    (description : Option String) (sd ed : Nat) (b : Bool) (s : DB)
    (hadmin : u.is_admin = true)
    (hfind : s.elections.find? (fun e => e.id = eid) = none) :
    edit_election u eid title description sd ed b s = (s, AdminResult.notFound) := by
  unfold edit_election
  rw [if_neg (by simp [hadmin]), hfind]

theorem edit_election_found (u : User) (eid : Nat) (title : String)
    (description : Option String) (sd ed : Nat) (b : Bool) (s : DB) (e : Election)
    (hadmin : u.is_admin = true)
    (hfind : s.elections.find? (fun e2 => e2.id = eid) = some e) :
    edit_election u eid title description sd ed b s =
      ({ s with elections :=
          ((if b ∧ ¬ e.is_active then deactivateAll s.elections else s.elections).map
            (applyEdit eid title description sd ed b)) },
       AdminResult.success) := by
  unfold edit_election
  rw [if_neg (by simp [hadmin]), hfind]

theorem edit_election_preserves (u : User) (eid : Nat) (title : String)
    (description : Option String) (sd ed : Nat) (b : Bool) (s : DB)
    (h : atMostOneActive s)
    (hnodup : (s.elections.map (fun e => e.id)).Nodup) :
    atMostOneActive (edit_election u eid title description sd ed b s).1 := by
  cases hadmin : u.is_admin with
  | false =>
    rw [edit_election_not_admin u eid title description sd ed b s hadmin]
    exact h
  | true =>
    cases hfind : s.elections.find? (fun e2 => e2.id = eid) with
    | none =>
      rw [edit_election_not_found u eid title description sd ed b s hadmin hfind]
      exact h
    | some e =>
      rw [edit_election_found u eid title description sd ed b s e hadmin hfind]
      have hmemE := List.mem_of_find?_eq_some hfind
      have heid : e.id = eid := by
        have := List.find?_some hfind
        simpa using this
      unfold atMostOneActive at h ⊢
      rw [← List.countP_eq_length_filter] at h ⊢
      by_cases hcond : b = true ∧ ¬ e.is_active = true
      · rw [if_pos hcond]
        unfold deactivateAll
        rw [List.map_map, List.countP_map]
        have hpoint : ∀ x ∈ s.elections,
            ((fun e2 => e2.is_active) ∘
              applyEdit eid title description sd ed b ∘ deactivate) x = true ↔
            (fun e2 => decide (e2.id = eid)) x = true := by
          intro x _
          simp only [Function.comp_apply, applyEdit_is_active, deactivate_id,
            deactivate_is_active, decide_eq_true_eq]
          by_cases hid : x.id = eid <;> simp [hid, hcond.1]
        rw [List.countP_congr hpoint]
        exact countP_id_le_one s.elections eid hnodup
      · rw [if_neg hcond]
        rw [List.countP_map]
        have hle : ∀ x ∈ s.elections,
            ((fun e2 => e2.is_active) ∘ applyEdit eid title description sd ed b) x = true →
            (fun e2 => e2.is_active) x = true := by
          intro x hx
          simp only [Function.comp_apply, applyEdit_is_active]
          by_cases hid : x.id = eid
          · rw [if_pos hid]
            intro hb
            have hxe : x = e := List.inj_on_of_nodup_map hnodup hx hmemE (by rw [hid, heid])
            rw [hxe]
            by_contra hne
            exact hcond ⟨hb, by simpa using hne⟩
          · rw [if_neg hid]
            exact id
        exact le_trans (List.countP_mono_left hle) h

theorem edit_election_deactivates (u : User) (eid : Nat) (title : String)
    (description : Option String) (sd ed : Nat) (s : DB) (e : Election)
    (hadmin : u.is_admin = true)
    (hfind : s.elections.find? (fun e2 => e2.id = eid) = some e)
    (h : atMostOneActive s) :
    ∀ f ∈ (edit_election u eid title description sd ed true s).1.elections,
      f.is_active = true → f.id = eid := by
  rw [edit_election_found u eid title description sd ed true s e hadmin hfind]
  have hmemE := List.mem_of_find?_eq_some hfind
  have heid : e.id = eid := by
    have := List.find?_some hfind
    simpa using this
  intro f hf hact
  by_cases hcond : True ∧ ¬ e.is_active = true
  · rw [if_pos (by simpa using hcond)] at hf
    rcases List.mem_map.mp hf with ⟨x, hx, rfl⟩
    rcases List.mem_map.mp hx with ⟨y, _, rfl⟩
    rw [applyEdit_is_active, deactivate_id] at hact
    rw [applyEdit_id, deactivate_id]
    by_cases hid : y.id = eid
    · exact hid
    · rw [if_neg hid, deactivate_is_active] at hact
      cases hact
  · have hcond2 : ¬ ((true = true) ∧ ¬ e.is_active = true) := by simpa using hcond
    rw [if_neg hcond2] at hf
    rcases List.mem_map.mp hf with ⟨x, hx, rfl⟩
    rw [applyEdit_is_active] at hact
    rw [applyEdit_id]
    by_cases hid : x.id = eid
    · exact hid
    · rw [if_neg hid] at hact
      -- x is active but is not the target; yet e is also active: contradiction with h
      have heact : e.is_active = true := by
        by_contra hne
        exact hcond ⟨trivial, hne⟩
      have hxe : x ≠ e := fun hEq => hid (by rw [hEq, heid])
      have hxf : x ∈ s.elections.filter (fun e2 => e2.is_active) :=
        List.mem_filter.mpr ⟨hx, hact⟩
      have hef : e ∈ s.elections.filter (fun e2 => e2.is_active) :=
        List.mem_filter.mpr ⟨hmemE, heact⟩
      unfold atMostOneActive at h
      have h2 : 2 ≤ (s.elections.filter (fun e2 => e2.is_active)).length := by
        match hl : s.elections.filter (fun e2 => e2.is_active) with
        | [] => rw [hl] at hxf; cases hxf
        | [c] =>
          rw [hl] at hxf hef
          have hxc := List.mem_singleton.mp hxf
          have hec := List.mem_singleton.mp hef
          exact absurd (hxc.trans hec.symm) hxe
        | c :: d :: t => rw [hl, List.length_cons, List.length_cons]; omega
      omega

theorem delete_election_preserves (u : User) (eid : Nat) (s : DB)
    (h : atMostOneActive s) :
    atMostOneActive (delete_election u eid s).1 := by
  unfold atMostOneActive at h ⊢
  unfold delete_election
  split
  · exact h
  split
  · exact h
  · refine le_trans (List.Sublist.length_le ?_) h
    exact List.Sublist.filter _ (List.filter_sublist _)

/-! ## Claim theorems -/

/-- **C1**: an account that already owns a persisted vote gets `AlreadyVoted`
from a further `vote` call, with the store unchanged (no new vote persisted);
and every sequence of operations preserves the at-most-one-vote-per-account
invariant.  (`hver` reflects that a vote-owning account is verified: votes are
only ever created for verified accounts and verification is never revoked.) -/
theorem c1_theorem (hashPw : String → String) (u : User) (cid : Nat) (code : String)
    (ts : Nat) (s : DB)
    (hver : u.is_verified = true)
    (hvoted : ∃ v ∈ s.votes, v.user_id = u.id) :
    vote u cid code ts s = (s, VoteResult.alreadyVoted) ∧
    (atMostOneVotePerUser s → ∀ ops : List Op, atMostOneVotePerUser (run hashPw s ops)) :=
  ⟨vote_already u cid code ts s hver hvoted,
   fun h ops => run_preserves_atMostOneVote hashPw s ops h⟩

/-- Witness for C1: Alice has voted; voting again changes nothing and reports
`AlreadyVoted`, and the invariant survives arbitrary operation sequences. -/
theorem c1_witness :
    vote voterAlice 1 "code-2" 7 dbOne = (dbOne, VoteResult.alreadyVoted) ∧
    (atMostOneVotePerUser dbOne →
      ∀ ops : List Op, atMostOneVotePerUser (run sampleHash dbOne ops)) :=
  c1_theorem sampleHash voterAlice 1 "code-2" 7 dbOne (by decide) (by decide)

/-- **C2**: starting from a store with at most one active election (and
primary-key-distinct election ids), the admin `add_election`, `edit_election`
and `delete_election` operations preserve the invariant; creating an election
as active leaves every other election inactive, and editing an existing
election to active leaves every election other than the target inactive. -/
theorem c2_theorem (u : User) (eid : Nat) (title : String) (description : Option String)
    (sd ed : Nat) (b : Bool) (s : DB)
    (hinv : atMostOneActive s)
    (hadmin : u.is_admin = true)
    (hnodup : (s.elections.map (fun e => e.id)).Nodup) :
    atMostOneActive (add_election u title description sd ed b s) ∧
    atMostOneActive (edit_election u eid title description sd ed b s).1 ∧
    atMostOneActive (delete_election u eid s).1 ∧
    (∀ e ∈ (add_election u title description sd ed true s).elections,
      e.is_active = true → e.id = nextId (s.elections.map (fun e2 => e2.id))) ∧
    (∀ e : Election, s.elections.find? (fun e2 => e2.id = eid) = some e →
      ∀ f ∈ (edit_election u eid title description sd ed true s).1.elections,
        f.is_active = true → f.id = eid) :=
  ⟨add_election_preserves u title description sd ed b s hinv,
   edit_election_preserves u eid title description sd ed b s hinv hnodup,
   delete_election_preserves u eid s hinv,
   add_election_deactivates u title description sd ed s hadmin,
   fun e hfind => edit_election_deactivates u eid title description sd ed s e hadmin hfind hinv⟩

/-- Witness for C2: an admin editing election 2 of a two-election store. -/
theorem c2_witness :
    atMostOneActive (add_election adminUser "T" none 0 1 true dbElections) ∧
    atMostOneActive (edit_election adminUser 2 "T" none 0 1 true dbElections).1 ∧
    atMostOneActive (delete_election adminUser 2 dbElections).1 ∧
    (∀ e ∈ (add_election adminUser "T" none 0 1 true dbElections).elections,
      e.is_active = true → e.id = nextId (dbElections.elections.map (fun e2 => e2.id))) ∧
    (∀ e : Election, dbElections.elections.find? (fun e2 => e2.id = 2) = some e →
      ∀ f ∈ (edit_election adminUser 2 "T" none 0 1 true dbElections).1.elections,
        f.is_active = true → f.id = 2) :=
  c2_theorem adminUser 2 "T" none 0 1 true dbElections
    (by unfold atMostOneActive; decide) (by decide) (by decide)

/-- `isPyDigit` coincides with the spec's decimal digits below the first
non-ASCII Nd block (which starts at codepoint 1632): the validators diverge
from the spec's digit class only on non-ASCII digits. -/
theorem isPyDigit_ascii (c : Char) (h : c.toNat < 1632) :
    isPyDigit c = isAsciiDigit c := by
  unfold isPyDigit isAsciiDigit
  rw [Bool.eq_iff_iff]
  simp only [List.any_eq_true, decide_eq_true_eq]
  constructor
  · rintro ⟨r, hr, hle, hge⟩
    have hcons := List.mem_cons.mp (show r ∈ ((48, 57) : Nat × Nat) :: ndRanges.drop 1 from hr)
    rcases hcons with rfl | hr2
    · exact ⟨hle, hge⟩
    · have hlow := (by decide : ∀ r ∈ ndRanges.drop 1, 1632 ≤ r.1) r hr2
      omega
  · rintro ⟨h48, h57⟩
    exact ⟨(48, 57), by unfold ndRanges; exact List.mem_cons_self _ _, h48, h57⟩

/-- **C5** counterexample: the national-ID validator accepts a string of 12
digits followed by a newline (Python `$` matches before a final newline), and
also 12 Arabic-Indic digits (Python `\d` matches any Unicode Nd digit);
neither input is exactly 12 decimal digits `0-9`, so the validator is not the
exact format predicate the claim states. -/
theorem c5_counterexample :
    validate_aadhaar "123456789012\n" = true ∧ specNationalId "123456789012\n" = false ∧
    validate_aadhaar "١٢٣٤٥٦٧٨٩٠١٢" = true ∧ specNationalId "١٢٣٤٥٦٧٨٩٠١٢" = false := by
  refine ⟨?_, ?_, ?_, ?_⟩ <;> decide

/-- **C5** (amended): each validator accepts exactly the spec's shape with
the digit positions drawn from Unicode's decimal digits (category Nd, Python
`\d`), optionally followed by one trailing newline; the digit class agrees
with the spec's `0-9` on all codepoints below the first non-ASCII digit
block; and the spec's four test vectors behave as stated. -/
theorem c5_theorem :
    (∀ s : String, validate_aadhaar s = true ↔
      (pyNationalId s = true ∨
        ∃ cs, s.toList = cs ++ ['\n'] ∧ pyNationalIdChars cs = true)) ∧
    (∀ s : String, validate_voter_id s = true ↔
      (pyVoterId s = true ∨
        ∃ cs, s.toList = cs ++ ['\n'] ∧ pyVoterIdChars cs = true)) ∧
    (∀ s : String, validate_pan s = true ↔
      (pyTaxId s = true ∨
        ∃ cs, s.toList = cs ++ ['\n'] ∧ pyTaxIdChars cs = true)) ∧
    (∀ c : Char, c.toNat < 1632 → isPyDigit c = isAsciiDigit c) ∧
    validate_aadhaar "123456789012" = true ∧
    validate_aadhaar "12345678901" = false ∧
    validate_voter_id "ABC1234567" = true ∧
    validate_voter_id "ABCD123456" = false :=
  ⟨validate_aadhaar_iff, validate_voter_id_iff, validate_pan_iff, isPyDigit_ascii,
   by decide, by decide, by decide, by decide⟩

/-- **C3** counterexample: a registration with the unknown document type
`"other"` is not rejected — it succeeds and persists an account carrying the
unvalidated document type. -/
theorem c3_counterexample :
    (register sampleHash "carol" "carol@example.com" "pw" "pw" "other" "12345"
        none "tok" dbEmpty).2 = RegisterResult.success 1 ∧
    ∃ u ∈ (register sampleHash "carol" "carol@example.com" "pw" "pw" "other" "12345"
        none "tok" dbEmpty).1.users,
      u.id_type = some "other" ∧ u.id_number = some "12345" := by
  decide

/-- **C3** (amended): with identity verification enabled, `register` rejects
an invalid number only for the three known document types (validation error,
no account created); a document type outside the enumeration bypasses format
validation and, when the remaining checks pass, the account is persisted
carrying that unvalidated type. -/
theorem c3_theorem (hashPw : String → String)
    (username email password id_type id_number : String)
    (id_proof : Option String) (token : String) (s : DB)
    (husername : ∀ u ∈ s.users, ¬ u.username = username)
    (hemail : ∀ u ∈ s.users, ¬ u.email = email)
    (hunknown : ¬ id_type = "aadhaar" ∧ ¬ id_type = "voter_id" ∧ ¬ id_type = "pan")
    (hnodoc : ∀ u ∈ s.users, ¬ (u.id_type = some id_type ∧ u.id_number = some id_number)) :
    (validate_aadhaar id_number = false →
      register hashPw username email password password "aadhaar" id_number id_proof token s
        = (s, RegisterResult.invalidAadhaar)) ∧
    (validate_voter_id id_number = false →
      register hashPw username email password password "voter_id" id_number id_proof token s
        = (s, RegisterResult.invalidVoterId)) ∧
    (validate_pan id_number = false →
      register hashPw username email password password "pan" id_number id_proof token s
        = (s, RegisterResult.invalidPan)) ∧
    ((register hashPw username email password password id_type id_number id_proof token s).2
        = RegisterResult.success (nextId (s.users.map (fun u => u.id)))) ∧
    (∃ nu : User,
      (register hashPw username email password password id_type id_number id_proof token s).1.users
        = s.users ++ [nu] ∧
      nu.id_type = some id_type ∧ nu.id_number = some id_number ∧ nu.is_verified = false) := by
  have hu : s.users.find? (fun u => u.username = username) = none :=
    List.find?_eq_none.mpr (fun u hu2 => by simpa using husername u hu2)
  have he : s.users.find? (fun u => u.email = email) = none :=
    List.find?_eq_none.mpr (fun u hu2 => by simpa using hemail u hu2)
  have hd : s.users.find?
      (fun u => u.id_type = some id_type ∧ u.id_number = some id_number) = none :=
    List.find?_eq_none.mpr (fun u hu2 => by simpa using hnodoc u hu2)
  refine ⟨?_, ?_, ?_, ?_, ?_⟩
  · intro hbad
    unfold register
    rw [if_neg (by simp), if_neg (by simp [hu]), if_neg (by simp [he]),
      if_pos (show ("aadhaar" : String) = "aadhaar" ∧ ¬ validate_aadhaar id_number = true
        from ⟨rfl, by simp [hbad]⟩)]
  · intro hbad
    unfold register
    rw [if_neg (by simp), if_neg (by simp [hu]), if_neg (by simp [he]),
      if_neg (by simp), if_pos (show ("voter_id" : String) = "voter_id" ∧
        ¬ validate_voter_id id_number = true from ⟨rfl, by simp [hbad]⟩)]
  · intro hbad
    unfold register
    rw [if_neg (by simp), if_neg (by simp [hu]), if_neg (by simp [he]),
      if_neg (by simp), if_neg (by simp), if_pos (show ("pan" : String) = "pan" ∧
        ¬ validate_pan id_number = true from ⟨rfl, by simp [hbad]⟩)]
  · unfold register
    rw [if_neg (by simp), if_neg (by simp [hu]), if_neg (by simp [he]),
      if_neg (by simp [hunknown.1]), if_neg (by simp [hunknown.2.1]),
      if_neg (by simp [hunknown.2.2]), if_neg (by rw [hd]; simp)]
  · unfold register
    rw [if_neg (by simp), if_neg (by simp [hu]), if_neg (by simp [he]),
      if_neg (by simp [hunknown.1]), if_neg (by simp [hunknown.2.1]),
      if_neg (by simp [hunknown.2.2]), if_neg (by rw [hd]; simp)]
    exact ⟨_, rfl, rfl, rfl, rfl⟩

/-- **C4** counterexample: with an account already holding national-ID number
`123456789012`, registering the same number under document type `"other"` is
not rejected as a duplicate, leaving two accounts with the same document
number. -/
theorem c4_counterexample :
    (register sampleHash "bob" "bob@example.com" "pw" "pw" "other" "123456789012"
        none "tok" dbAlice).2 ≠ RegisterResult.documentAlreadyRegistered ∧
    ∃ u1 ∈ (register sampleHash "bob" "bob@example.com" "pw" "pw" "other" "123456789012"
        none "tok" dbAlice).1.users,
      ∃ u2 ∈ (register sampleHash "bob" "bob@example.com" "pw" "pw" "other" "123456789012"
        none "tok" dbAlice).1.users,
        ¬ u1.id = u2.id ∧ u1.id_number = some "123456789012" ∧
        u2.id_number = some "123456789012" := by
  decide

/-- **C4** (amended): with the earlier checks passing, `register` fails with
`DocumentAlreadyRegistered` iff an existing account carries both the submitted
document type and the submitted document number — the duplicate check is on
the (type, number) pair, not on the number alone. -/
theorem c4_theorem (hashPw : String → String)
    (username email password id_type id_number : String)
    (id_proof : Option String) (token : String) (s : DB)
    (husername : ∀ u ∈ s.users, ¬ u.username = username)
    (hemail : ∀ u ∈ s.users, ¬ u.email = email)
    (hformat : (id_type = "aadhaar" → validate_aadhaar id_number = true) ∧
      (id_type = "voter_id" → validate_voter_id id_number = true) ∧
      (id_type = "pan" → validate_pan id_number = true)) :
    register hashPw username email password password id_type id_number id_proof token s
        = (s, RegisterResult.documentAlreadyRegistered) ↔
      ∃ u ∈ s.users, u.id_type = some id_type ∧ u.id_number = some id_number := by
  have hu : s.users.find? (fun u => u.username = username) = none :=
    List.find?_eq_none.mpr (fun u hu2 => by simpa using husername u hu2)
  have he : s.users.find? (fun u => u.email = email) = none :=
    List.find?_eq_none.mpr (fun u hu2 => by simpa using hemail u hu2)
  unfold register
  rw [if_neg (by simp), if_neg (by simp [hu]), if_neg (by simp [he]),
    if_neg (fun hc => hc.2 (hformat.1 hc.1)),
    if_neg (fun hc => hc.2 (hformat.2.1 hc.1)),
    if_neg (fun hc => hc.2 (hformat.2.2 hc.1))]
  by_cases hdup : ∃ u ∈ s.users, u.id_type = some id_type ∧ u.id_number = some id_number
  · rw [if_pos (show (s.users.find? (fun u =>
        u.id_type = some id_type ∧ u.id_number = some id_number)).isSome = true by
      rw [List.find?_isSome]
      obtain ⟨u, hu2, h1, h2⟩ := hdup
      exact ⟨u, hu2, by simp [h1, h2]⟩)]
    exact iff_of_true rfl hdup
  · have hnone : s.users.find?
        (fun u => u.id_type = some id_type ∧ u.id_number = some id_number) = none :=
      List.find?_eq_none.mpr (fun u hu2 hp => hdup ⟨u, hu2, by simpa using hp⟩)
    rw [if_neg (by rw [hnone]; simp)]
    constructor
    · intro hEq
      have h2 := congrArg Prod.snd hEq
      simp at h2
    · intro h
      exact absurd h hdup

/-- Witness for C3: registering with unknown document type `"other"` into the
empty store persists an account carrying the unvalidated type. -/
theorem c3_witness :
    (validate_aadhaar "999" = false →
      register sampleHash "dave" "dave@example.com" "pw" "pw" "aadhaar" "999" none "tok" dbEmpty
        = (dbEmpty, RegisterResult.invalidAadhaar)) ∧
    (validate_voter_id "999" = false →
      register sampleHash "dave" "dave@example.com" "pw" "pw" "voter_id" "999" none "tok" dbEmpty
        = (dbEmpty, RegisterResult.invalidVoterId)) ∧
    (validate_pan "999" = false →
      register sampleHash "dave" "dave@example.com" "pw" "pw" "pan" "999" none "tok" dbEmpty
        = (dbEmpty, RegisterResult.invalidPan)) ∧
    ((register sampleHash "dave" "dave@example.com" "pw" "pw" "other" "999" none "tok" dbEmpty).2
        = RegisterResult.success (nextId (dbEmpty.users.map (fun u => u.id)))) ∧
    (∃ nu : User,
      (register sampleHash "dave" "dave@example.com" "pw" "pw" "other" "999" none "tok" dbEmpty).1.users
        = dbEmpty.users ++ [nu] ∧
      nu.id_type = some "other" ∧ nu.id_number = some "999" ∧ nu.is_verified = false) :=
  c3_theorem sampleHash "dave" "dave@example.com" "pw" "other" "999" none "tok" dbEmpty
    (by decide) (by decide) (by decide) (by decide)

/-- Witness for C4: with Alice's national-ID number stored, a registration
with an unmatched (type, number) pair is not a duplicate. -/
theorem c4_witness :
    register sampleHash "bob" "bob@example.com" "pw" "pw" "other" "123456789012"
        none "tok" dbAlice
        = (dbAlice, RegisterResult.documentAlreadyRegistered) ↔
      ∃ u ∈ dbAlice.users, u.id_type = some "other" ∧ u.id_number = some "123456789012" :=
  c4_theorem sampleHash "bob" "bob@example.com" "pw" "other" "123456789012"
    none "tok" dbAlice (by decide) (by decide) (by decide)

/-- The effect of `reject_user` when the caller is an administrator and the
target account exists: success, the user row and its votes removed, and the
stored proof artifact deleted. -/
theorem reject_user_found_eq (admin : User) (uid : Nat) (target : User) (s : DB)
    (hadmin : admin.is_admin = true)
    (hfind : s.users.find? (fun u2 => u2.id = uid) = some target) :
    (reject_user admin uid s).2 = AdminResult.success ∧
    (reject_user admin uid s).1.users = s.users.filter (fun u2 => u2.id ≠ uid) ∧
    (reject_user admin uid s).1.votes = s.votes.filter (fun v => v.user_id ≠ uid) ∧
    (∀ p, target.id_proof_image = some p →
      (reject_user admin uid s).1.files = removeFile s.files p) := by
  unfold reject_user
  rw [if_neg (by simp [hadmin]), hfind]
  refine ⟨rfl, rfl, rfl, ?_⟩
  intro p hp
  simp only [hp]

/-- **C8**: an administrator rejecting an existing account deletes the account
and (by cascade) its votes, releases its stored proof artifact, and any later
`login` with that account's username fails with invalid credentials
(`huniq` is the store's username uniqueness constraint). -/
theorem c8_theorem (checkPw : String → String → Bool) (admin : User) (uid : Nat)
    (target : User) (s : DB)
    (hadmin : admin.is_admin = true)
    (hfind : s.users.find? (fun u2 => u2.id = uid) = some target)
    (huniq : ∀ u2 ∈ s.users, u2.username = target.username → u2.id = target.id) :
    (reject_user admin uid s).2 = AdminResult.success ∧
    (∀ u2 ∈ (reject_user admin uid s).1.users, ¬ u2.id = uid) ∧
    (∀ v ∈ (reject_user admin uid s).1.votes, ¬ v.user_id = uid) ∧
    (∀ p, target.id_proof_image = some p → p ∉ (reject_user admin uid s).1.files) ∧
    (∀ password, login checkPw target.username password (reject_user admin uid s).1
      = LoginResult.invalidCredentials) := by
  obtain ⟨hres, husers, hvotes, hfiles⟩ := reject_user_found_eq admin uid target s hadmin hfind
  have htid : target.id = uid := by simpa using List.find?_some hfind
  refine ⟨hres, ?_, ?_, ?_, ?_⟩
  · intro u2 hu2
    rw [husers] at hu2
    have := List.of_mem_filter hu2
    simpa using this
  · intro v hv
    rw [hvotes] at hv
    have := List.of_mem_filter hv
    simpa using this
  · intro p hp
    rw [hfiles p hp]
    unfold removeFile
    intro hmem
    have := List.of_mem_filter hmem
    simp at this
  · intro password
    unfold login
    have hnone : (reject_user admin uid s).1.users.find?
        (fun u2 => u2.username = target.username) = none := by
      rw [husers, List.find?_eq_none]
      intro x hx
      have hxs := List.mem_of_mem_filter hx
      have hxid : ¬ x.id = uid := by simpa using List.of_mem_filter hx
      simp only [decide_eq_true_eq]
      intro hname
      exact hxid (by rw [huniq x hxs hname, htid])
    rw [hnone]

/-- Witness for C8: the admin rejects Alice; her account, vote and proof file
are gone, and her credentials no longer authenticate. -/
theorem c8_witness :
    (reject_user adminUser 2 dbOne).2 = AdminResult.success ∧
    (∀ u2 ∈ (reject_user adminUser 2 dbOne).1.users, ¬ u2.id = 2) ∧
    (∀ v ∈ (reject_user adminUser 2 dbOne).1.votes, ¬ v.user_id = 2) ∧
    (∀ p, voterAlice.id_proof_image = some p → p ∉ (reject_user adminUser 2 dbOne).1.files) ∧
    (∀ password, login sampleCheck voterAlice.username password (reject_user adminUser 2 dbOne).1
      = LoginResult.invalidCredentials) :=
  c8_theorem sampleCheck adminUser 2 voterAlice dbOne (by decide) (by decide) (by decide)

/-- **C6**: the admin tally returns one (candidate, count) pair per candidate
(a permutation of the per-candidate enumeration), sorted by count descending;
equal-count entries keep the enumeration (insertion) order; and the reported
total equals the number of persisted votes, which equals the sum of the
per-candidate counts. -/
theorem c6_theorem (u : User) (s : DB)
    (hadmin : u.is_admin = true)
    (hnodup : (s.candidates.map (fun c => c.id)).Nodup)
    (hmem : ∀ v ∈ s.votes, v.candidate_id ∈ s.candidates.map (fun c => c.id)) :
    ∃ res : List (Candidate × Nat) × Nat,
      admin_results u s = some res ∧
      res.1.Perm (tallyList s) ∧
      (res.1.map Prod.fst).Perm s.candidates ∧
      List.Sorted tallyOrder res.1 ∧
      (∀ n : Nat, res.1.filter (fun x => x.2 = n) = (tallyList s).filter (fun x => x.2 = n)) ∧
      res.2 = s.votes.length ∧
      (res.1.map Prod.snd).sum = s.votes.length := by
  refine ⟨(List.insertionSort tallyOrder (tallyList s), s.votes.length), ?_, ?_, ?_, ?_, ?_, rfl, ?_⟩
  · unfold admin_results
    rw [if_neg (by simp [hadmin])]
  · exact List.perm_insertionSort tallyOrder (tallyList s)
  · have hp := (List.perm_insertionSort tallyOrder (tallyList s)).map Prod.fst
    have hfst : (tallyList s).map Prod.fst = s.candidates := by
      unfold tallyList
      exact map_fst_pairing s.candidates _
    rw [hfst] at hp
    exact hp
  · exact List.sorted_insertionSort tallyOrder (tallyList s)
  · intro n
    exact insertionSort_filter_count (tallyList s) n
  · have hp := (List.perm_insertionSort tallyOrder (tallyList s)).map Prod.snd
    rw [hp.sum_eq]
    have hsnd : (tallyList s).map Prod.snd
        = s.candidates.map (fun c => (s.votes.filter (fun v => v.candidate_id = c.id)).length) := by
      unfold tallyList
      rw [List.map_map]
      rfl
    rw [hsnd]
    exact tally_counts_sum s.candidates s.votes hnodup hmem

/-- Witness for C6: the spec's tally scenario (A, B, C with 3, 5, 5 votes). -/
theorem c6_witness :
    ∃ res : List (Candidate × Nat) × Nat,
      admin_results adminUser dbTally = some res ∧
      res.1.Perm (tallyList dbTally) ∧
      (res.1.map Prod.fst).Perm dbTally.candidates ∧
      List.Sorted tallyOrder res.1 ∧
      (∀ n : Nat, res.1.filter (fun x => x.2 = n)
        = (tallyList dbTally).filter (fun x => x.2 = n)) ∧
      res.2 = dbTally.votes.length ∧
      (res.1.map Prod.snd).sum = dbTally.votes.length :=
  c6_theorem adminUser dbTally (by decide) (by decide) (by decide)

/-- A characterization of the result component of `vote`, used to show the
outcome never depends on the elections table. -/
theorem vote_snd (u : User) (cid : Nat) (code : String) (ts : Nat) (s : DB) :
    (vote u cid code ts s).2 =
      if ID_VERIFICATION_REQUIRED ∧ ¬ u.is_verified then VoteResult.notVerified
      else if (s.votes.find? (fun v => v.user_id = u.id)).isSome then VoteResult.alreadyVoted
      else match s.candidates.find? (fun c2 => c2.id = cid) with
        | none => VoteResult.candidateNotFound
        | some _ => VoteResult.success (nextId (s.votes.map (fun v => v.id))) code := by
  unfold vote
  by_cases h1 : ID_VERIFICATION_REQUIRED ∧ ¬ u.is_verified
  · rw [if_pos h1, if_pos h1]
  · rw [if_neg h1, if_neg h1]
    by_cases h2 : (s.votes.find? (fun v => v.user_id = u.id)).isSome
    · rw [if_pos h2, if_pos h2]
    · rw [if_neg h2, if_neg h2]
      cases s.candidates.find? (fun c2 => c2.id = cid) with
      | none => rfl
      | some c => rfl

theorem vote_elections_independent (u : User) (cid : Nat) (code : String) (ts : Nat)
    (s : DB) (els : List Election) :
    (vote u cid code ts { s with elections := els }).2 = (vote u cid code ts s).2 := by
  rw [vote_snd, vote_snd]

/-- `find?` over a list extended on the right finds the appended element when
nothing before it matches. -/
theorem find?_append_right {α : Type} (l : List α) (a : α) (p : α → Bool)
    (h : ∀ x ∈ l, ¬ p x = true) (hpa : p a = true) :
    (l ++ [a]).find? p = some a := by
  induction l with
  | nil => simp [List.find?_cons, hpa]
  | cons x l ih =>
    have hx : p x = false := by simpa using h x (List.mem_cons_self x l)
    rw [List.cons_append, List.find?_cons, hx]
    exact ih (fun y hy => h y (List.mem_cons_of_mem x hy))

/-- Inversion of a successful `vote`: the guards passed, the candidate was
found, and the store gained exactly the new vote row. -/
theorem vote_success_inv (u : User) (cid : Nat) (code : String) (ts : Nat) (s : DB) (vid : Nat)
    (h : (vote u cid code ts s).2 = VoteResult.success vid code) :
    ∃ c : Candidate, s.candidates.find? (fun c2 => c2.id = cid) = some c ∧
      (∀ v ∈ s.votes, ¬ v.user_id = u.id) ∧
      vote u cid code ts s =
        ({ s with votes := s.votes ++ [Vote.mk (nextId (s.votes.map (fun v => v.id))) u.id c.id ts code] }, VoteResult.success (nextId (s.votes.map (fun v => v.id))) code) := by
  unfold vote at h ⊢
  split at h
  · simp at h
  next h1 =>
  split at h
  · simp at h
  next h2 =>
  have hnone : s.votes.find? (fun v => v.user_id = u.id) = none := by
    cases hf : s.votes.find? (fun v => v.user_id = u.id) with
    | none => rfl
    | some v => exact absurd (by rw [hf]; rfl) h2
  have hall : ∀ v ∈ s.votes, ¬ v.user_id = u.id := fun v hv => by
    simpa using List.find?_eq_none.mp hnone v hv
  split at h
  · simp at h
  next c hc =>
    refine ⟨c, hc, hall, ?_⟩
    rw [if_neg h1, if_neg h2]

/-- **C7**: a vote successfully created by `vote` with a fresh confirmation
code is returned by `verify_vote` on that code, together with the candidate
that was voted for and the same account (`u` is the store's record for the
session's user id, as `load_user` fetches it). -/
theorem c7_theorem (u : User) (cid : Nat) (code : String) (ts : Nat) (s : DB) (vid : Nat)
    (hfresh : ∀ v ∈ s.votes, ¬ v.confirmation_code = code)
    (huser : s.users.find? (fun u2 => u2.id = u.id) = some u)
    (hsucc : (vote u cid code ts s).2 = VoteResult.success vid code) :
    ∃ nv : Vote, ∃ c : Candidate,
      (vote u cid code ts s).1.votes = s.votes ++ [nv] ∧
      nv.user_id = u.id ∧ nv.candidate_id = c.id ∧ nv.confirmation_code = code ∧
      s.candidates.find? (fun c2 => c2.id = cid) = some c ∧
      verify_vote code (vote u cid code ts s).1
        = VerifyVoteResult.success nv (some c) (some u) := by
  obtain ⟨c, hc, _, hshape⟩ := vote_success_inv u cid code ts s vid hsucc
  have hcid : c.id = cid := by simpa using List.find?_some hc
  refine ⟨Vote.mk (nextId (s.votes.map (fun v => v.id))) u.id c.id ts code, c,
    ?_, rfl, rfl, rfl, hc, ?_⟩
  · rw [hshape]
  · rw [hshape]
    unfold verify_vote
    have hfind : ((s.votes ++ [Vote.mk (nextId (s.votes.map (fun v => v.id))) u.id c.id ts code]).find? (fun v => v.confirmation_code = code)) = some (Vote.mk (nextId (s.votes.map (fun v => v.id))) u.id c.id ts code) := by
      apply find?_append_right
      · intro x hx
        simpa using hfresh x hx
      · simp
    have hcand : s.candidates.find? (fun c2 => c2.id = c.id) = some c := by
      rw [hcid]
      exact hc
    simp only [hfind]
    show VerifyVoteResult.success (Vote.mk (nextId (s.votes.map (fun v => v.id))) u.id c.id ts code) (s.candidates.find? (fun c2 => c2.id = c.id)) (s.users.find? (fun u2 => u2.id = u.id)) = VerifyVoteResult.success (Vote.mk (nextId (s.votes.map (fun v => v.id))) u.id c.id ts code) (some c) (some u)
    rw [hcand, huser]

/-- Witness for C7: Alice casts the first vote in a store with one candidate;
`verify_vote` on the issued code returns it. -/
theorem c7_witness :
    ∃ nv : Vote, ∃ c : Candidate,
      (vote voterAlice 1 "fresh-code" 5 dbNoVotes).1.votes = dbNoVotes.votes ++ [nv] ∧
      nv.user_id = voterAlice.id ∧ nv.candidate_id = c.id ∧
      nv.confirmation_code = "fresh-code" ∧
      dbNoVotes.candidates.find? (fun c2 => c2.id = 1) = some c ∧
      verify_vote "fresh-code" (vote voterAlice 1 "fresh-code" 5 dbNoVotes).1
        = VerifyVoteResult.success nv (some c) (some voterAlice) :=
  c7_theorem voterAlice 1 "fresh-code" 5 dbNoVotes 1 (by decide) (by decide) (by decide)

/-- **C9**: a verified account with no prior vote voting for an existing
candidate succeeds even when zero elections are active, and the outcome of
`vote` is entirely independent of the elections table. -/
theorem c9_theorem (u : User) (cid : Nat) (code : String) (ts : Nat) (s : DB) (c : Candidate)
    (hver : u.is_verified = true)
    (hnov : ∀ v ∈ s.votes, ¬ v.user_id = u.id)
    (hc : s.candidates.find? (fun c2 => c2.id = cid) = some c)
    (hnoactive : ∀ e ∈ s.elections, e.is_active = false) :
    (vote u cid code ts s).2
        = VoteResult.success (nextId (s.votes.map (fun v => v.id))) code ∧
    (∀ els : List Election,
      (vote u cid code ts { s with elections := els }).2 = (vote u cid code ts s).2) := by
  constructor
  · have h2 : s.votes.find? (fun v => v.user_id = u.id) = none :=
      List.find?_eq_none.mpr (fun v hv => by simpa using hnov v hv)
    rw [vote_snd, if_neg (fun hx => hx.2 hver), if_neg (by rw [h2]; simp), hc]
  · intro els
    exact vote_elections_independent u cid code ts s els

/-- Witness for C9: Alice votes in a store with zero elections. -/
theorem c9_witness :
    (vote voterAlice 1 "fresh-code" 5 dbNoVotes).2
        = VoteResult.success (nextId (dbNoVotes.votes.map (fun v => v.id))) "fresh-code" ∧
    (∀ els : List Election,
      (vote voterAlice 1 "fresh-code" 5 { dbNoVotes with elections := els }).2
        = (vote voterAlice 1 "fresh-code" 5 dbNoVotes).2) :=
  c9_theorem voterAlice 1 "fresh-code" 5 dbNoVotes candA
    (by decide) (by decide) (by decide) (by decide)

/-- **C10**: the confirmation view succeeds exactly when the requested vote
exists and belongs to the requesting account; otherwise the request is
rejected with not-found or unauthorized, neither of which carries the vote. -/
theorem c10_theorem (u : User) (vote_id : Nat) (s : DB) :
    (∃ v oc, vote_confirmation u vote_id s = ConfirmResult.success v oc ∧
      s.votes.find? (fun v2 => v2.id = vote_id) = some v ∧ v.user_id = u.id) ∨
    (vote_confirmation u vote_id s = ConfirmResult.notFound ∧
      s.votes.find? (fun v2 => v2.id = vote_id) = none) ∨
    (vote_confirmation u vote_id s = ConfirmResult.unauthorized ∧
      ∃ v, s.votes.find? (fun v2 => v2.id = vote_id) = some v ∧ ¬ v.user_id = u.id) := by
  cases hf : s.votes.find? (fun v2 => v2.id = vote_id) with
  | none =>
    right; left
    refine ⟨?_, rfl⟩
    unfold vote_confirmation
    rw [hf]
  | some v =>
    by_cases hv : v.user_id ≠ u.id
    · right; right
      refine ⟨?_, v, rfl, hv⟩
      unfold vote_confirmation
      simp only [hf]
      rw [if_pos hv]
    · left
      refine ⟨v, s.candidates.find? (fun c2 => c2.id = v.candidate_id), ?_, rfl, not_not.mp hv⟩
      unfold vote_confirmation
      simp only [hf]
      rw [if_neg hv]

end VotingApp
